import Mathlib

/-!
Verification of the procurement spend-analysis core: a shallow embedding of
`optimization_engine.py` (`run_supplier_optimization`),
`constrained_optimization.py` (`run_constrained_optimization`) and
`monte_carlo.py` (`run_monte_carlo_analysis`), together with the SQL
aggregation queries those functions issue against the `purchase_orders`,
`suppliers` and `quality_incidents` tables.

Modelling conventions:
- SQLite REAL / Python float values are modelled as exact rationals `ℚ`.
- SQL NULL and IEEE NaN (pandas missing values) are modelled as `Option ℚ`
  with `none` standing for the missing / non-finite value.  Pandas
  arithmetic propagates NaN (`Option.map` / `oAdd`), while pandas
  reductions (`sum`, `min`, `max`) skip NaN (`skipnaSum`, `definedMin`,
  `definedMax`), matching `skipna=True` defaults.
- `ROUND(x, d)` is `round2` / `round4` (via `qround`); the
  half-away-from-zero versus half-up difference of SQLite's rounding is
  irrelevant to every statement below (no value sits on a half boundary
  in any concrete input used).
-/

/-- Round to the nearest integer, halves up (`round x = ⌊x + 1/2⌋`),
written through `Rat.floor` so that the kernel can evaluate it. -/
def qround (x : ℚ) : ℤ := Rat.floor (x + 1/2)

/-- ROUND(x, 2) of the SQL queries: round to 2 decimal places. -/
def round2 (x : ℚ) : ℚ := (qround (x * 100) : ℚ) / 100

/-- ROUND(x, 4) of the SQL queries: round to 4 decimal places. -/
def round4 (x : ℚ) : ℚ := (qround (x * 10000) : ℚ) / 10000

/-- NaN-propagating addition (pandas elementwise `+` on possibly-NaN floats). -/
def oAdd : Option ℚ → Option ℚ → Option ℚ
  | some x, some y => some (x + y)
  | _, _ => none

/-- NaN-propagating multiplication of two possibly-NaN values. -/
def oMul : Option ℚ → Option ℚ → Option ℚ
  | some x, some y => some (x * y)
  | _, _ => none

/-- Scalar times possibly-NaN value (`weight * series` in pandas). -/
def oSMul (c : ℚ) (x : Option ℚ) : Option ℚ := x.map (fun v => c * v)

/-- Checked division: `none` models the IEEE non-finite result (inf / nan)
of dividing by zero, which numpy produces instead of raising. -/
def qdiv (a b : ℚ) : Option ℚ := if b = 0 then none else some (a / b)

/-- Pandas `Series.sum()` with the default `skipna=True`: NaN entries are
skipped (an all-NaN or empty series sums to 0.0). -/
def skipnaSum (l : List (Option ℚ)) : ℚ := (l.filterMap id).sum

/-- Sequence a list of possibly-NaN values: the list of values when every
entry is defined, `none` otherwise. -/
def seqOpt : List (Option ℚ) → Option (List ℚ)
  | [] => some []
  | none :: _ => none
  | some x :: rest => (seqOpt rest).map (fun l => x :: l)

/-- The true sum of a list of possibly-NaN values: `none` as soon as any
entry is NaN.  Used to state "the shares sum to 1". -/
def sumOpt (l : List (Option ℚ)) : Option ℚ := (seqOpt l).map List.sum

/-- Pandas `Series.min()` with `skipna=True`: minimum of the defined
entries, `none` when no entry is defined. -/
def definedMin (l : List (Option ℚ)) : Option ℚ :=
  (l.filterMap id).foldl
    (fun acc x => match acc with | none => some x | some m => some (min m x)) none

/-- Pandas `Series.max()` with `skipna=True`. -/
def definedMax (l : List (Option ℚ)) : Option ℚ :=
  (l.filterMap id).foldl
    (fun acc x => match acc with | none => some x | some m => some (max m x)) none

/-! ## Input tables

The three database tables read by both optimizers.  Delivery dates are
modelled as `Option ℤ` (day numbers); `none` is SQL NULL. -/

/-- A row of the `suppliers` table (the columns the queries use). -/
structure Supplier where
  supplier_id : String
  risk_level : String
deriving DecidableEq, Repr

/-- A row of the `purchase_orders` table (the columns the queries use). -/
structure PORow where
  po_number : String
  supplier_id : String
  supplier_name : String
  category : String
  quantity : ℚ
  total_amount_ngn : ℚ
  expected_delivery_date : Option ℤ
  actual_delivery_date : Option ℤ
deriving DecidableEq, Repr

/-- A row of the `quality_incidents` table. -/
structure QIRow where
  incident_id : String
  po_number : String
  cost_impact_ngn : ℚ
deriving DecidableEq, Repr

/-- Embeds `JOIN suppliers s ON po.supplier_id = s.supplier_id`: the risk level of
a purchase order's supplier (`supplier_id` is the table's primary key, so
the first match is the only match). -/
def lookupRisk (sups : List Supplier) (sid : String) : Option String :=
  (sups.find? (fun s => s.supplier_id = sid)).map (fun s => s.risk_level)

/-- One row of the FROM clause after both joins: a purchase order, the
quality incident paired with it by the LEFT JOIN (if any), and the
supplier's risk level from the inner join. -/
structure JoinedRow where
  po : PORow
  qi : Option QIRow
  risk_level : String
deriving DecidableEq, Repr

/-- The joined relation
`purchase_orders JOIN suppliers LEFT JOIN quality_incidents`: a purchase
order without a matching supplier is dropped (inner join); a purchase
order with k ≥ 1 matching incidents fans out into k rows, with no
incident it keeps a single row with a NULL incident. -/
def joinedRows (sups : List Supplier) (pos : List PORow) (qis : List QIRow) :
    List JoinedRow :=
  pos.flatMap (fun po =>
    match lookupRisk sups po.supplier_id with
    | none => []
    | some r =>
      match qis.filter (fun q => q.po_number = po.po_number) with
      | [] => [⟨po, none, r⟩]
      | l => l.map (fun q => ⟨po, some q, r⟩))

/-- The GROUP BY key of both supplier-metric queries:
`(category, supplier_id, supplier_name, risk_level)`. -/
structure GroupKey where
  category : String
  supplier_id : String
  supplier_name : String
  risk_level : String
deriving DecidableEq, Repr

def rowKey (j : JoinedRow) : GroupKey :=
  ⟨j.po.category, j.po.supplier_id, j.po.supplier_name, j.risk_level⟩

/-- SQL `CASE WHEN po.actual_delivery_date <= po.expected_delivery_date
THEN 1 ELSE 0 END`: a NULL on either side makes the comparison non-true,
landing in the ELSE branch. -/
def sqlOnTime (po : PORow) : Bool :=
  match po.actual_delivery_date, po.expected_delivery_date with
  | some a, some e => decide (a ≤ e)
  | _, _ => false

/-- The per-(category, supplier) aggregate row produced by the supplier
metric queries of both optimizers (the two SELECTs group identically; this
record carries the union of their columns). -/
structure SupplierCategoryMetric where
  category : String
  supplier_id : String
  supplier_name : String
  total_quantity : ℚ
  total_spend_ngn : ℚ
  avg_unit_cost_ngn : Option ℚ
  on_time_delivery_pct : Option ℚ
  quality_incident_count : ℚ
  quality_cost_ngn : ℚ
  total_orders : ℕ
  risk_level : String
deriving DecidableEq, Repr

/-- The aggregate row for one group key: SUMs range over the fanned-out
joined rows (so a purchase order with several incidents is counted once
per incident, as in the source SQL); `avg_unit_cost_ngn` and
`on_time_delivery_pct` use `NULLIF(..., 0)` denominators, i.e. become NULL
(`none`) when the denominator is zero. -/
def aggKey (rows : List JoinedRow) (k : GroupKey) : SupplierCategoryMetric :=
  let g := rows.filter (fun j => rowKey j = k)
  let qty := (g.map (fun j => j.po.quantity)).sum
  let spend := (g.map (fun j => j.po.total_amount_ngn)).sum
  let onTimeNum := (g.filter (fun j => sqlOnTime j.po)).length
  let otdDen := (g.filter (fun j => j.po.actual_delivery_date.isSome)).length
  let incidents := (g.filterMap (fun j => j.qi))
  { category := k.category
    supplier_id := k.supplier_id
    supplier_name := k.supplier_name
    total_quantity := round2 qty
    total_spend_ngn := round2 spend
    avg_unit_cost_ngn := if qty = 0 then none else some (round4 (spend / qty))
    on_time_delivery_pct :=
      if otdDen = 0 then none
      else some (round2 ((onTimeNum * 100 : ℚ) / otdDen))
    quality_incident_count := round2 ((incidents.map (fun q => q.incident_id)).dedup.length)
    quality_cost_ngn := round2 ((incidents.map (fun q => q.cost_impact_ngn)).sum)
    total_orders := ((g.map (fun j => j.po.po_number)).dedup).length
    risk_level := k.risk_level }

/-- The supplier-metric query of both optimizers: aggregate per group key,
then `HAVING total_quantity > 0`.  (SQL does not specify an emission order
for GROUP BY; groups are listed here in key-deduplication order — no claim
below depends on this order.) -/
def supplierMetrics (sups : List Supplier) (pos : List PORow) (qis : List QIRow) :
    List SupplierCategoryMetric :=
  let rows := joinedRows sups pos qis
  (((rows.map rowKey).dedup).map (aggKey rows)).filter
    (fun m => decide (0 < m.total_quantity))

/-- A row of the `category_history` query (grouped over all purchase
orders, no join and no HAVING clause; the unconstrained query additionally
selects the average unit cost, carried here for both). -/
structure CategoryHistory where
  category : String
  category_quantity : ℚ
  category_spend_ngn : ℚ
  category_avg_unit_cost : Option ℚ
deriving DecidableEq, Repr

/-- The `category_history` aggregation of both optimizers. -/
def categoryHistory (pos : List PORow) : List CategoryHistory :=
  ((pos.map (fun p => p.category)).dedup).map (fun c =>
    let g := pos.filter (fun p => p.category = c)
    let qty := (g.map (fun p => p.quantity)).sum
    let spend := (g.map (fun p => p.total_amount_ngn)).sum
    ⟨c, round2 qty, round2 spend,
      if qty = 0 then none else some (round4 (spend / qty))⟩)

/-! ## Unconstrained optimizer (`optimization_engine.py`) -/

/-- The `RISK_SCORES` dict of `optimization_engine.py`. -/
def RISK_SCORES (s : String) : Option ℚ :=
  if s = "Low" then some 1
  else if s = "Medium" then some (3/5)
  else if s = "High" then some (1/5)
  else none

/-- Embeds `group["risk_level"].map(RISK_SCORES).fillna(0.4)`. -/
def riskScoreFill (s : String) : ℚ := (RISK_SCORES s).getD (2/5)

/-- Embeds `_minmax(series, higher_is_better)`: min-max scaling over the defined
entries; when the series has no defined entry or its defined min equals
its defined max, every position (NaN ones included) becomes 1.0;
otherwise NaN entries stay NaN and defined entries are scaled (inverted
when lower is better). -/
def minmaxScale (s : List (Option ℚ)) (higherIsBetter : Bool) : List (Option ℚ) :=
  match definedMin s, definedMax s with
  | some mn, some mx =>
    if mx = mn then s.map (fun _ => some 1)
    else
      s.map (Option.map (fun x =>
        let scaled := (x - mn) / (mx - mn)
        if higherIsBetter then scaled else 1 - scaled))
  | _, _ => s.map (fun _ => some 1)

/-- The four configured score weights (`score_weights` dict). -/
structure ScoreWeights where
  unit_cost : ℚ
  delivery : ℚ
  quality : ℚ
  risk : ℚ
deriving DecidableEq, Repr

/-- Zip four equal-length lists (the four score columns of one category). -/
def zipWith4 {α β γ δ ε : Type} (f : α → β → γ → δ → ε) :
    List α → List β → List γ → List δ → List ε
  | a :: as, b :: bs, c :: cs, d :: ds => f a b c d :: zipWith4 f as bs cs ds
  | _, _, _, _ => []

/-- The `composite_score` column of one category group: the weighted sum
of the four normalized dimensions, with pandas NaN propagation. -/
def compositeScores (w : ScoreWeights) (group : List SupplierCategoryMetric) :
    List (Option ℚ) :=
  let costS := minmaxScale (group.map (fun m => m.avg_unit_cost_ngn)) false
  let delS := minmaxScale (group.map (fun m => m.on_time_delivery_pct)) true
  let qualS := minmaxScale (group.map (fun m => some m.quality_cost_ngn)) false
  let riskS := group.map (fun m => some (riskScoreFill m.risk_level))
  zipWith4 (fun c d q r =>
      oAdd (oAdd (oAdd (oSMul w.unit_cost c) (oSMul w.delivery d))
        (oSMul w.quality q)) (oSMul w.risk r))
    costS delS qualS riskS

/-- A metric row of one category tagged with its original row position and
its composite score. -/
structure ScoredRow where
  idx : ℕ
  metric : SupplierCategoryMetric
  score : Option ℚ
deriving DecidableEq, Repr

/-- The rows of one category, in frame order, with composite scores. -/
def scoredRows (w : ScoreWeights) (group : List SupplierCategoryMetric) :
    List ScoredRow :=
  ((group.zip (compositeScores w group)).enum).map
    (fun p => ⟨p.1, p.2.1, p.2.2⟩)

/-- Comparison key modelling
`sort_values("composite_score", ascending=False)`: higher score first,
NaN scores after all defined scores (`na_position="last"`, which pandas
guarantees regardless of sort kind).  The source's default
`kind="quicksort"` leaves the relative order of *equal* scores
unspecified — numpy's introsort is not stable once a tied group is large
enough to partition — so the tie order here (original row position, the
behaviour of numpy's insertion-sort fallback on small tied groups) is a
modelling choice fixing one deterministic order; no theorem below
depends on the order of tied scores. -/
def rowLeB (a b : ScoredRow) : Bool :=
  match a.score, b.score with
  | some x, some y => if x = y then decide (a.idx ≤ b.idx) else decide (y < x)
  | some _, none => true
  | none, some _ => false
  | none, none => decide (a.idx ≤ b.idx)

def rowLe (a b : ScoredRow) : Prop := rowLeB a b = true

instance : DecidableRel rowLe := fun a b => by
  unfold rowLe; infer_instance

instance : IsTotal ScoredRow rowLe := by
  constructor
  intro a b
  unfold rowLe rowLeB
  rcases ha : a.score with _ | x <;> rcases hb : b.score with _ | y <;>
    dsimp only
  · simp only [decide_eq_true_eq]; omega
  · simp
  · simp
  · simp only [Bool.ite_eq_true_distrib, decide_eq_true_eq]
    rcases eq_or_ne x y with rfl | hne
    · rw [if_pos rfl, if_pos rfl]; omega
    · rw [if_neg hne, if_neg hne.symm]
      rcases hne.lt_or_lt with h | h
      · right; exact h
      · left; exact h

instance : IsTrans ScoredRow rowLe := by
  constructor
  intro a b c
  unfold rowLe rowLeB
  rcases ha : a.score with _ | x <;> rcases hb : b.score with _ | y <;>
    rcases hc : c.score with _ | z <;> dsimp only
  · simp only [decide_eq_true_eq]; omega
  · simp
  · simp
  · simp
  · simp
  · simp
  · simp
  · simp only [Bool.ite_eq_true_distrib, decide_eq_true_eq]
    intro h1 h2
    split_ifs at h1 h2 ⊢ <;> first | omega | linarith | simp_all

/-- Embeds `group.sort_values("composite_score", ascending=False)`: the
descending score order and the NaN-last placement are faithful to the
source; the order among equal scores is the deterministic modelling
choice documented at `rowLeB`, since the source's default quicksort kind
specifies none. -/
def sortDesc (rows : List ScoredRow) : List ScoredRow :=
  List.insertionSort rowLe rows

/-- Embeds `.head(max_suppliers_per_category)` after the descending sort. -/
def selectTop (k : ℕ) (rows : List ScoredRow) : List ScoredRow :=
  (sortDesc rows).take k

/-- Embeds `_allocate_shares(scores, min_share)`: proportional base share (equal
split when the skipna sum of scores is not positive), clip below at
`min_share`, renormalize by the skipna sum of the clipped shares.  NaN
scores yield NaN shares (pandas arithmetic propagates them). -/
def allocateShares (scores : List (Option ℚ)) (minShare : ℚ) : List (Option ℚ) :=
  if scores = [] then []
  else
    let psum := skipnaSum scores
    let base :=
      if 0 < psum then scores.map (Option.map (fun x => x / psum))
      else scores.map (fun _ => some (1 / (scores.length : ℚ)))
    let adjusted := base.map (Option.map (fun x => max minShare x))
    let asum := skipnaSum adjusted
    adjusted.map (Option.map (fun x => x / asum))

/-- The per-category body of `run_supplier_optimization`: score, sort,
select the top rows, and allocate their shares. -/
def categoryRecommendations (w : ScoreWeights) (maxSup : ℕ) (minShare : ℚ)
    (group : List SupplierCategoryMetric) : List (ScoredRow × Option ℚ) :=
  let selected := selectTop maxSup (scoredRows w group)
  selected.zip (allocateShares (selected.map (fun r => r.score)) minShare)

/-- One output row of `run_supplier_optimization` (columns added to the
selected metric row). -/
structure URec where
  row : ScoredRow
  recommended_share : Option ℚ
  projected_quantity : Option ℚ
  projected_spend_ngn : Option ℚ
  historical_category_spend_ngn : ℚ
deriving DecidableEq, Repr

/-- The flat numeric summary of `run_supplier_optimization`. -/
structure USummary where
  historical_spend_ngn : ℚ
  optimized_spend_ngn : ℚ
  optimization_savings_ngn : ℚ
  optimization_savings_pct : ℚ
deriving DecidableEq, Repr

/-- Embeds `run_supplier_optimization`: per-category scoring / selection / share
allocation, projections against category history, and the summary
comparison.  Categories are iterated in deduplication order (pandas
`groupby` sorts them; no statement below depends on the iteration order).
A category present in the metrics always has a history row because both
queries aggregate the same `purchase_orders` table, so the `none` branch
of the history lookup (where the source's `.iloc[0]` would raise) is
unreachable and modelled as yielding no rows. -/
def runSupplierOptimization (sups : List Supplier) (pos : List PORow)
    (qis : List QIRow) (maxSup : ℕ) (minShare : ℚ) (w : ScoreWeights) :
    List URec × USummary :=
  let metrics := supplierMetrics sups pos qis
  let hist := categoryHistory pos
  if metrics = [] then ([], ⟨0, 0, 0, 0⟩)
  else
    let cats := (metrics.map (fun m => m.category)).dedup
    let recs : List URec := cats.flatMap (fun c =>
      match hist.find? (fun h => h.category = c) with
      | none => []
      | some h =>
        (categoryRecommendations w maxSup minShare
            (metrics.filter (fun m => m.category = c))).map (fun p =>
          let share := p.2
          let pq := share.map (fun s => s * h.category_quantity)
          { row := p.1
            recommended_share := share
            projected_quantity := pq
            projected_spend_ngn := oMul pq p.1.metric.avg_unit_cost_ngn
            historical_category_spend_ngn := h.category_spend_ngn }))
    -- merge of `category_history` with the per-category projected sums,
    -- `fillna` falling back to the historical spend for categories
    -- without recommendation rows
    let optimized : ℚ := (hist.map (fun h =>
      let projs := recs.filter (fun r => r.row.metric.category = h.category)
      if projs = [] then h.category_spend_ngn
      else skipnaSum (projs.map (fun r => r.projected_spend_ngn)))).sum
    let historical := (hist.map (fun h => h.category_spend_ngn)).sum
    let savings := max 0 (historical - optimized)
    let pct := if 0 < historical then savings / historical * 100 else 0
    (recs, ⟨historical, optimized, savings, pct⟩)

/-! ## Constrained optimizer (`constrained_optimization.py`) -/

/-- The constraints dict.  The source reads each key with
`constraints.get(key, default)`; the record models a fully-populated dict
(every claim below quantifies over all values, covering the defaults). -/
structure Constraints where
  max_single_supplier_share : ℚ
  min_dual_source_threshold : ℚ
  min_on_time_delivery_pct : ℚ
  max_quality_incidents_per_order : ℚ
  max_risk_level : String
  min_price_percentile : ℚ
deriving DecidableEq, Repr

/-- The `risk_level_order` dict. -/
def riskLevelOrder (s : String) : Option ℕ :=
  if s = "Low" then some 0
  else if s = "Medium" then some 1
  else if s = "High" then some 2
  else none

/-- Embeds `group["risk_level"].map(risk_level_order).fillna(3)`. -/
def riskNumericFill (s : String) : ℕ := (riskLevelOrder s).getD 3

/-- Embeds `risk_level_order.get(max_risk, 3)`. -/
def maxRiskNumeric (c : Constraints) : ℕ :=
  (riskLevelOrder c.max_risk_level).getD 3

/-- Pandas comparison `series >= floor` on a possibly-NaN value: NaN
compares False. -/
def otdGeB (otd : Option ℚ) (floor : ℚ) : Bool :=
  match otd with
  | some v => decide (floor ≤ v)
  | none => false

/-- The eligibility filter: OTD floor AND quality ceiling AND risk cap. -/
def eligibleFilter (c : Constraints) (group : List SupplierCategoryMetric) :
    List SupplierCategoryMetric :=
  group.filter (fun m =>
    otdGeB m.on_time_delivery_pct c.min_on_time_delivery_pct
      && decide (m.quality_incident_count ≤ c.max_quality_incidents_per_order)
      && decide (riskNumericFill m.risk_level ≤ maxRiskNumeric c))

/-- Embeds `frame.nsmallest(1, "avg_unit_cost_ngn")` followed by `.iloc[0]`: the
first row (in frame order) attaining the minimum defined cost; rows with a
NULL cost are dropped by `nsmallest`, and `none` is returned when no row
has a defined cost (where the source's `.iloc[0]` would raise). -/
def nsmallest1Cost (l : List SupplierCategoryMetric) :
    Option SupplierCategoryMetric :=
  l.foldl (fun acc m =>
    match m.avg_unit_cost_ngn with
    | none => acc
    | some cm =>
      match acc with
      | none => some m
      | some a =>
        match a.avg_unit_cost_ngn with
        | none => some m
        | some ca => if cm < ca then some m else acc) none

/-- Embeds `price_range = max_price - min_price if max_price > min_price else 1.0`:
the 1.0 proxy when the eligible prices are degenerate. -/
def priceRange (mn mx : ℚ) : ℚ := if mn < mx then mx - mn else 1

/-- The price-percentile gate: keep eligible suppliers priced at or below
`max_price - (1 - min_price_percentile) * price_range`.  When every
eligible cost is NULL the source's threshold is NaN and the comparison
admits nothing (unreachable for HAVING-filtered metric rows). -/
def priceQualified (c : Constraints) (eligible : List SupplierCategoryMetric) :
    List SupplierCategoryMetric :=
  match definedMin (eligible.map (fun m => m.avg_unit_cost_ngn)),
      definedMax (eligible.map (fun m => m.avg_unit_cost_ngn)) with
  | some mn, some mx =>
    let threshold := mx - (1 - c.min_price_percentile) * priceRange mn mx
    eligible.filter (fun m =>
      match m.avg_unit_cost_ngn with
      | some v => decide (v ≤ threshold)
      | none => false)
  | _, _ => []

/-- One output row of `run_constrained_optimization`.  The projected spend
multiplies by the row's average unit cost; every row reaching this point
was selected through a cost comparison (`nsmallest` or the price filter),
so its cost is defined and `getD 0` is never exercised on `none`. -/
structure CRec where
  metric : SupplierCategoryMetric
  constrained_share : ℚ
  projected_quantity : ℚ
  projected_spend_ngn : ℚ
  historical_category_spend_ngn : ℚ
  dual_sourced : Bool
deriving DecidableEq, Repr

def mkCRec (m : SupplierCategoryMetric) (share qty spend : ℚ) (dual : Bool) :
    CRec :=
  { metric := m
    constrained_share := share
    projected_quantity := share * qty
    projected_spend_ngn := share * qty * (m.avg_unit_cost_ngn.getD 0)
    historical_category_spend_ngn := spend
    dual_sourced := dual }

/-- The eligibility filter with the first fallback applied:
`if eligible.empty: eligible = group.nsmallest(1, "avg_unit_cost_ngn")`. -/
def eligibleRelaxed (c : Constraints) (group : List SupplierCategoryMetric) :
    List SupplierCategoryMetric :=
  let eligible0 := eligibleFilter c group
  if eligible0 = [] then (nsmallest1Cost group).toList else eligible0

/-- The price gate with the second fallback applied:
`if price_qualified.empty: price_qualified = eligible.nsmallest(1, ...)`. -/
def pqRelaxed (c : Constraints) (eligible : List SupplierCategoryMetric) :
    List SupplierCategoryMetric :=
  let pq0 := priceQualified c eligible
  if pq0 = [] then (nsmallest1Cost eligible).toList else pq0

/-- The recommendation rows of one category, given the price-qualified
suppliers.  `spendAboveThreshold` is `category_spend >
min_dual_source_threshold`; dual sourcing is enforced when additionally
more than one price-qualified supplier remains. -/
def categoryRecs (c : Constraints) (pq : List SupplierCategoryMetric)
    (categoryQty categorySpend : ℚ) (spendAboveThreshold : Bool) : List CRec :=
  if spendAboveThreshold && decide (1 < pq.length) then
    match nsmallest1Cost pq with
    | none => []
    | some primary =>
      let primaryShare := min (13/20 : ℚ) c.max_single_supplier_share
      let secondaryCandidates :=
        pq.filter (fun m => m.supplier_id ≠ primary.supplier_id)
      if secondaryCandidates = [] then
        [mkCRec primary 1 categoryQty categorySpend false]
      else
        match nsmallest1Cost secondaryCandidates with
        | none => []
        | some secondary =>
          [mkCRec primary primaryShare categoryQty categorySpend true,
           mkCRec secondary (1 - primaryShare) categoryQty categorySpend true]
  else
    match nsmallest1Cost pq with
    | none => []
    | some primary => [mkCRec primary 1 categoryQty categorySpend false]

/-- The per-category body of `run_constrained_optimization`, returning the
recommendation rows together with the historical spend accumulated for
this category (the source adds `category_spend` to
`total_historical_spend` exactly when the eligible set is non-empty).
The `none` results of `nsmallest1Cost` mark states where the source's
`.iloc[0]` would raise `IndexError`; they are unreachable for metric rows
that passed `HAVING total_quantity > 0` (whose costs are all defined). -/
def constrainedCategory (c : Constraints) (group : List SupplierCategoryMetric)
    (h : CategoryHistory) : List CRec × ℚ :=
  let eligible := eligibleRelaxed c group
  if eligible = [] then ([], 0)
  else
    (categoryRecs c (pqRelaxed c eligible) h.category_quantity
        h.category_spend_ngn
        (decide (c.min_dual_source_threshold < h.category_spend_ngn)),
      h.category_spend_ngn)

/-- The flat numeric summary of `run_constrained_optimization`.
`dual_sourced_categories` is `int(recommendations_df["dual_sourced"].sum())`:
the number of rows whose flag is set.  On empty metrics the source returns
a dict with only the first two keys; the absent keys are modelled as 0. -/
structure CSummary where
  constrained_spend_ngn : ℚ
  constrained_savings_ngn : ℚ
  constrained_savings_pct : ℚ
  dual_sourced_categories : ℕ
deriving DecidableEq, Repr

/-- The per-category loop of `run_constrained_optimization`: for each
category of the metric frame (in groupby order), its recommendation rows
and the historical spend it contributes to `total_historical_spend`.  The
source looks the history row up after the price gate and `continue`s when
it is empty; nothing before that lookup has an effect, so the lookup is
modelled up front. -/
def constrainedResults (sups : List Supplier) (pos : List PORow)
    (qis : List QIRow) (c : Constraints) : List (List CRec × ℚ) :=
  let metrics := supplierMetrics sups pos qis
  let hist := categoryHistory pos
  ((metrics.map (fun m => m.category)).dedup).map (fun cat =>
    match hist.find? (fun hh => hh.category = cat) with
    | none => ([], 0)
    | some hh =>
      constrainedCategory c (metrics.filter (fun m => m.category = cat)) hh)

/-- Embeds `run_constrained_optimization`. -/
def runConstrainedOptimization (sups : List Supplier) (pos : List PORow)
    (qis : List QIRow) (c : Constraints) : List CRec × CSummary :=
  let metrics := supplierMetrics sups pos qis
  if metrics = [] then ([], ⟨0, 0, 0, 0⟩)
  else
    let results : List (List CRec × ℚ) := constrainedResults sups pos qis c
    let recs : List CRec := (results.map (fun p => p.1)).flatten
    let totalHistorical := (results.map (fun p => p.2)).sum
    let totalConstrained := (recs.map (fun r => r.projected_spend_ngn)).sum
    let savings := max 0 (totalHistorical - totalConstrained)
    let pct := if 0 < totalHistorical then savings / totalHistorical * 100
      else 0
    (recs, ⟨totalConstrained, savings, pct,
      (recs.filter (fun r => r.dual_sourced)).length⟩)

/-! ## Monte Carlo simulator (`monte_carlo.py`)

The source seeds numpy's process-wide generator (`np.random.seed(seed)`)
and then draws four arrays in sequence.  The generator is modelled as an
explicit state threaded through the draws: `seedState` is the state
installed by `np.random.seed`, `rngNext`/`stdNormalDraw` stand in for the
Mersenne-Twister step and the standard-normal transform.  Every statement
proved below depends only on the draws being a deterministic function of
the evolving state, not on their distribution. -/

abbrev RngState := ℕ

/-- The generator state installed by `np.random.seed(seed)`. -/
def seedState (seed : ℤ) : RngState := (seed.emod 2147483648).toNat

/-- One generator step (a linear-congruential stand-in for the
Mersenne-Twister update). -/
def rngNext (s : RngState) : RngState := (1103515245 * s + 12345) % 2147483648

/-- The standard-normal variate extracted from a generator state (a
bounded symmetric stand-in for the normal transform). -/
def stdNormalDraw (s : RngState) : ℚ := ((s % 2001 : ℕ) : ℚ) / 1000 - 1

/-- Embeds `np.random.normal(mu, sigma, n)`: n draws, advancing the state. -/
def normalDraws (mu sigma : ℚ) : ℕ → RngState → List ℚ × RngState
  | 0, s => ([], s)
  | n + 1, s =>
    let s1 := rngNext s
    let rest := normalDraws mu sigma n s1
    ((mu + sigma * stdNormalDraw s1) :: rest.1, rest.2)

/-- The point estimates read out of the insights bag
(`base_insights.get(key, 0.0)`). -/
structure Insights where
  total_spend : ℚ
  price_standardization_savings : ℚ
  performance_improvement_savings : ℚ
  consolidation_savings : ℚ
deriving DecidableEq, Repr

/-- The four relative uncertainty parameters. -/
structure UncertaintyParams where
  price_standardization_sigma : ℚ
  performance_improvement_sigma : ℚ
  consolidation_sigma : ℚ
  total_spend_sigma : ℚ
deriving DecidableEq, Repr

/-- Ascending sort of the draws, used by median / percentiles. -/
def qsortAsc (l : List ℚ) : List ℚ :=
  List.insertionSort (fun a b : ℚ => a ≤ b) l

/-- Embeds `np.percentile(a, p)` with the default linear interpolation. -/
def percentileQ (l : List ℚ) (p : ℚ) : ℚ :=
  let s := qsortAsc l
  let n := s.length
  let pos := p / 100 * ((n : ℚ) - 1)
  let i : ℕ := (⌊pos⌋).toNat
  let lo := s.getD i 0
  let hi := s.getD (i + 1) lo
  lo + (hi - lo) * (pos - (i : ℚ))

/-- Embeds `np.mean` (the simulation count is ≥ 1 per the configuration
contract; an empty list would be NaN in numpy and is 0 here). -/
def meanQ (l : List ℚ) : ℚ := l.sum / (l.length : ℚ)

/-- Embeds `np.median` = 50th percentile with linear interpolation. -/
def medianQ (l : List ℚ) : ℚ := percentileQ l 50

/-- The square of `np.std`: `np.std l` is the (deterministic) square root
of this variance.  The variance is carried instead of the standard
deviation because the square root is irrational over `ℚ`; two result
records are bit-identical exactly when their variances are equal. -/
def varQ (l : List ℚ) : ℚ := meanQ (l.map (fun x => (x - meanQ l) ^ 2))

/-- A statistic over the savings-percentage draws: `none` as soon as any
draw is non-finite (numpy propagates inf / nan into mean, median and
percentiles). -/
def statOpt (f : List ℚ → ℚ) (l : List (Option ℚ)) : Option ℚ :=
  (seqOpt l).map f

/-- The results dict of `run_monte_carlo_analysis`
(`total_savings_var_ngn` stands for `np.std`'s square, see `varQ`). -/
structure MCResult where
  total_savings_mean_ngn : ℚ
  total_savings_median_ngn : ℚ
  total_savings_var_ngn : ℚ
  total_savings_p05_ngn : ℚ
  total_savings_p25_ngn : ℚ
  total_savings_p75_ngn : ℚ
  total_savings_p95_ngn : ℚ
  savings_pct_mean : Option ℚ
  savings_pct_median : Option ℚ
  savings_pct_p05 : Option ℚ
  savings_pct_p95 : Option ℚ
deriving DecidableEq, Repr

/-- The savings-percentage draws:
`(total_savings_draws / draws["spend"]) * 100.0`, with `qdiv` marking the
non-finite result of a zero spend draw. -/
def savingsPctDraws (total spend : List ℚ) : List (Option ℚ) :=
  (total.zip spend).map (fun p => (qdiv p.1 p.2).map (fun v => v * 100))

/-- Embeds `run_monte_carlo_analysis(base_insights, num_simulations, random_seed,
uncertainty_params)`.  `g` is the state of the process-wide generator
before the call; the body installs `seedState seed` over it, exactly as
`np.random.seed` does. -/
def runMonteCarloAnalysis (ins : Insights) (numSimulations : ℕ) (seed : ℤ)
    (up : UncertaintyParams) (g : RngState) : MCResult :=
  let s0 := seedState seed
  let priceSigma := ins.price_standardization_savings * up.price_standardization_sigma
  let perfSigma := ins.performance_improvement_savings * up.performance_improvement_sigma
  let consSigma := ins.consolidation_savings * up.consolidation_sigma
  let spendSigma := ins.total_spend * up.total_spend_sigma
  let d1 := normalDraws ins.price_standardization_savings priceSigma numSimulations s0
  let priceDraws := d1.1.map (fun x => max 0 x)
  let d2 := normalDraws ins.performance_improvement_savings perfSigma numSimulations d1.2
  let perfDraws := d2.1.map (fun x => max 0 x)
  let d3 := normalDraws ins.consolidation_savings consSigma numSimulations d2.2
  let consDraws := d3.1.map (fun x => max 0 x)
  let d4 := normalDraws ins.total_spend spendSigma numSimulations d3.2
  let spendDraws := d4.1.map (fun x => max (ins.total_spend * (1/2)) x)
  let totalSavingsDraws :=
    List.zipWith (fun a b => a + b)
      (List.zipWith (fun a b => a + b) priceDraws perfDraws) consDraws
  let pctDraws := savingsPctDraws totalSavingsDraws spendDraws
  { total_savings_mean_ngn := meanQ totalSavingsDraws
    total_savings_median_ngn := medianQ totalSavingsDraws
    total_savings_var_ngn := varQ totalSavingsDraws
    total_savings_p05_ngn := percentileQ totalSavingsDraws 5
    total_savings_p25_ngn := percentileQ totalSavingsDraws 25
    total_savings_p75_ngn := percentileQ totalSavingsDraws 75
    total_savings_p95_ngn := percentileQ totalSavingsDraws 95
    savings_pct_mean := statOpt meanQ pctDraws
    savings_pct_median := statOpt medianQ pctDraws
    savings_pct_p05 := statOpt (fun l => percentileQ l 5) pctDraws
    savings_pct_p95 := statOpt (fun l => percentileQ l 95) pctDraws }

/-! ## Pure specialisation of the share allocator -/

/-- Embeds `_allocate_shares` specialised to all-defined scores (no NaN is met in
this case): `allocateShares (vals.map some) m` equals
`(allocateSharesVals vals m).map some`, proved below. -/
def allocateSharesVals (vals : List ℚ) (minShare : ℚ) : List ℚ :=
  if vals = [] then []
  else
    let psum := vals.sum
    let base :=
      if 0 < psum then vals.map (fun x => x / psum)
      else vals.map (fun _ => 1 / (vals.length : ℚ))
    let adjusted := base.map (fun x => max minShare x)
    adjusted.map (fun x => x / adjusted.sum)

/-! ## Concrete inputs used by counterexamples and witnesses -/

/-- The default `score_weights` dict of `run_supplier_optimization`. -/
def defaultScoreWeights : ScoreWeights := ⟨9/20, 3/10, 3/20, 1/10⟩

/-- The default `uncertainty_params` dict of `run_monte_carlo_analysis`. -/
def defaultUncertainty : UncertaintyParams := ⟨3/20, 1/5, 1/4, 1/20⟩

/-- Two low-risk suppliers. -/
def supsAB : List Supplier := [⟨"S1", "Low"⟩, ⟨"S2", "Low"⟩]

/-- One category, two suppliers with distinct unit costs (10 and 20),
both fully on time. -/
def posAB : List PORow :=
  [⟨"PO1", "S1", "SupA", "Cat", 10, 100, some 10, some 9⟩,
   ⟨"PO2", "S2", "SupB", "Cat", 10, 200, some 10, some 9⟩]

/-- Constraints admitting both suppliers with the dual-sourcing threshold
(100) below the category spend (300). -/
def constraintsDual : Constraints := ⟨4/5, 100, 0, 5, "High", 1⟩

/-- The same constraints with the dual-sourcing threshold (1000) above
the category spend (300): the ordinary single-source path. -/
def constraintsSingle : Constraints := ⟨4/5, 1000, 0, 5, "High", 1⟩

/-- Three low-risk suppliers. -/
def supsABC : List Supplier := [⟨"S1", "Low"⟩, ⟨"S2", "Low"⟩, ⟨"S3", "Low"⟩]

/-- One category, three suppliers with equal costs; the first has no
actual delivery date (undefined OTD), the second is late (OTD 0), the
third on time (OTD 100). -/
def posNanOtd : List PORow :=
  [⟨"PO1", "S1", "SupA", "Cat", 10, 100, some 10, none⟩,
   ⟨"PO2", "S2", "SupB", "Cat", 10, 100, some 10, some 12⟩,
   ⟨"PO3", "S3", "SupC", "Cat", 10, 100, some 10, some 9⟩]

/-- One category, two suppliers with equal costs; the first has no actual
delivery date (undefined OTD), the second is on time (OTD 100). -/
def posNoActual : List PORow :=
  [⟨"PO1", "S1", "SupA", "Cat", 10, 100, some 10, none⟩,
   ⟨"PO2", "S2", "SupB", "Cat", 10, 100, some 10, some 9⟩]

/-- One category, two suppliers with identical metrics (tied composite
scores). -/
def posTie : List PORow :=
  [⟨"PO1", "S1", "SupA", "Cat", 10, 100, some 10, some 9⟩,
   ⟨"PO2", "S2", "SupB", "Cat", 10, 100, some 10, some 9⟩]

/-- An insights bag with zero total spend (all savings levers positive). -/
def insZeroSpend : Insights := ⟨0, 1, 1, 1⟩

/-- An insights bag with positive total spend. -/
def insUnitSpend : Insights := ⟨1, 1, 1, 1⟩

/-! ## Claim theorems -/

/-- C5: the Monte Carlo simulator is deterministic in its seed: for a fixed
insights bag, uncertainty parameters and simulation count, two runs with
the identical `random_seed` produce bit-identical summary statistics.  The
two runs may start from arbitrary (distinct) states `g₁`, `g₂` of the
process-wide generator: `np.random.seed` overwrites that state, so the
result depends only on the seed and the inputs. -/
theorem c5_seed_determinism (ins : Insights) (n : ℕ) (seed : ℤ)
    (up : UncertaintyParams) (g₁ g₂ : RngState) :
    runMonteCarloAnalysis ins n seed up g₁ =
      runMonteCarloAnalysis ins n seed up g₂ := rfl

set_option maxRecDepth 40000 in
/-- C10: the `min_supplier_share` floor is applied before the final
renormalization and hence is not guaranteed on the output: with composite
scores 0.9, 0.05, 0.05 and `min_supplier_share = 0.15` the allocator
returns shares 0.75, 0.125, 0.125, and 0.125 < 0.15. -/
theorem c10_min_share_not_enforced :
    allocateShares [some (9/10), some (1/20), some (1/20)] (3/20) =
        [some (3/4), some (1/8), some (1/8)]
      ∧ (1/8 : ℚ) < 3/20 := by
  with_unfolding_all decide

/-- C7 counterexample: a supplier-category row with an unknown risk level
is mapped by the unconstrained optimizer to risk score 0.4, which is
strictly better than a High-risk supplier's score 0.2 — not the worst. -/
theorem c7_unknown_risk_counterexample :
    riskScoreFill "Unknown" = 2/5 ∧ riskScoreFill "High" = 1/5 ∧
      ¬ (riskScoreFill "Unknown" ≤ riskScoreFill "High") := by
  with_unfolding_all decide

/-- C7 amended: an unknown risk level is ranked 3 in the constrained path
(above High's 2, hence failing every cap of Low, Medium or High), while in
the unconstrained path it scores 0.4 — worse than Low and Medium but
strictly better than High (not the worst score). -/
theorem c7_unknown_risk_amended (s cap : String) (hL : s ≠ "Low")
    (hM : s ≠ "Medium") (hH : s ≠ "High")
    (hcap : cap = "Low" ∨ cap = "Medium" ∨ cap = "High") :
    riskNumericFill s = 3
      ∧ riskNumericFill "High" < riskNumericFill s
      ∧ (riskLevelOrder cap).getD 3 < riskNumericFill s
      ∧ riskScoreFill s = 2/5
      ∧ riskScoreFill "High" < riskScoreFill s
      ∧ riskScoreFill s < riskScoreFill "Medium" := by
  have h0 : riskLevelOrder s = none := by
    simp [riskLevelOrder, hL, hM, hH]
  have h1 : RISK_SCORES s = none := by
    simp [RISK_SCORES, hL, hM, hH]
  have h2 : riskNumericFill s = 3 := by simp [riskNumericFill, h0]
  have h3 : riskScoreFill s = 2/5 := by simp [riskScoreFill, h1]
  refine ⟨h2, ?_, ?_, h3, ?_, ?_⟩
  · rw [h2]; with_unfolding_all decide
  · rw [h2]
    rcases hcap with rfl | rfl | rfl <;> with_unfolding_all decide
  · rw [h3]; with_unfolding_all decide
  · rw [h3]; with_unfolding_all decide

/-- C7 witness: the amended statement at the concrete unknown level
`"Unknown"` and the cap `"High"`. -/
theorem c7_unknown_risk_witness :
    riskNumericFill "Unknown" = 3
      ∧ riskNumericFill "High" < riskNumericFill "Unknown"
      ∧ (riskLevelOrder "High").getD 3 < riskNumericFill "Unknown"
      ∧ riskScoreFill "Unknown" = 2/5
      ∧ riskScoreFill "High" < riskScoreFill "Unknown"
      ∧ riskScoreFill "Unknown" < riskScoreFill "Medium" :=
  c7_unknown_risk_amended "Unknown" "High" (by decide) (by decide)
    (by decide) (Or.inr (Or.inr rfl))

set_option maxRecDepth 400000 in
/-- C1 counterexample: with two eligible suppliers, a cap
`max_single_supplier_share = 0.8` and the category spend (300) below the
dual-sourcing threshold (1000), the ordinary single-source path assigns
the cheapest supplier a constrained share of 1.0, which exceeds the cap
plus the 1e-6 tolerance — and this is not the single-eligible-supplier
fallback case, since the eligibility filter retains both suppliers. -/
theorem c1_single_source_full_share_counterexample :
    ((runConstrainedOptimization supsAB posAB [] constraintsSingle).1.map
        (fun r => (r.constrained_share, r.dual_sourced))) = [(1, false)]
      ∧ (eligibleFilter constraintsSingle
          (supplierMetrics supsAB posAB [])).length = 2
      ∧ constraintsSingle.max_single_supplier_share = 4/5
      ∧ ¬ ((1 : ℚ) ≤ 4/5 + 1/1000000) := by
  with_unfolding_all decide

set_option maxRecDepth 400000 in
/-- C2: on a database with one category whose spend (300) exceeds the
dual-sourcing threshold (100) and two price-qualified suppliers, the
optimizer emits two rows flagged `dual_sourced`, and the summary field
`dual_sourced_categories = int(df["dual_sourced"].sum())` evaluates to 2 —
the number of flagged rows — while the number of distinct categories with
a flagged row is 1. -/
theorem c2_dual_sourced_categories_counts_rows :
    (runConstrainedOptimization supsAB posAB [] constraintsDual).2.dual_sourced_categories = 2
      ∧ ((((runConstrainedOptimization supsAB posAB [] constraintsDual).1.filter
            (fun r => r.dual_sourced)).map (fun r => r.metric.category)).dedup).length = 1 := by
  with_unfolding_all decide

set_option maxRecDepth 400000 in
/-- C6 counterexample: with a zero total-spend point estimate, the spend
draws are all zero (`max(0 * 0.5, normal(0, 0))`), the savings-percentage
draws divide by zero, and the non-finite result reaches the caller's
summary statistics — no sentinel substitution takes place. -/
theorem c6_zero_spend_counterexample :
    insZeroSpend.total_spend = 0
      ∧ (runMonteCarloAnalysis insZeroSpend 1 0 defaultUncertainty 0).savings_pct_mean = none := by
  with_unfolding_all decide

set_option maxRecDepth 400000 in
/-- C3 counterexample: in a category whose three suppliers are tied on
cost, quality and risk while their on-time-delivery percentages are
undefined, 0 and 100, the undefined supplier's composite score is NaN yet
it is still selected; its recommended share is NaN, so the selected
shares do not sum to 1.0 (their sum is not even defined). -/
theorem c3_nan_share_counterexample :
    ((categoryRecommendations defaultScoreWeights 3 (3/20)
        (supplierMetrics supsABC posNanOtd [])).map (fun p => p.2)) =
        [some (10/17), some (7/17), none]
      ∧ sumOpt ((categoryRecommendations defaultScoreWeights 3 (3/20)
          (supplierMetrics supsABC posNanOtd [])).map (fun p => p.2)) = none := by
  with_unfolding_all decide

set_option maxRecDepth 400000 in
/-- C8 counterexample: a supplier with no actual delivery dates has an
undefined OTD percentage, but when the category's only other supplier has
OTD 100 the min-max scaler hits its degenerate branch and assigns the
undefined supplier the tie-neutral score 1.0 — the best possible value,
not the worst. -/
theorem c8_undefined_otd_counterexample :
    ((supplierMetrics supsAB posNoActual []).map
        (fun m => m.on_time_delivery_pct)) = [none, some 100]
      ∧ minmaxScale ((supplierMetrics supsAB posNoActual []).map
          (fun m => m.on_time_delivery_pct)) true = [some 1, some 1] := by
  with_unfolding_all decide

lemma seqOpt_isSome_of_all {l : List (Option ℚ)} (h : ∀ x ∈ l, x.isSome) :
    (seqOpt l).isSome := by
  induction l with
  | nil => simp [seqOpt]
  | cons a t ih =>
    rcases a with _ | v
    · simpa using h none (by simp)
    · have ht := ih (fun x hx => h x (by simp [hx]))
      rcases hs : seqOpt t with _ | vs
      · rw [hs] at ht; simp at ht
      · simp [seqOpt, hs]

lemma statOpt_isSome (f : List ℚ → ℚ) {l : List (Option ℚ)}
    (h : ∀ x ∈ l, x.isSome) : (statOpt f l).isSome := by
  have hl := seqOpt_isSome_of_all h
  rcases hs : seqOpt l with _ | vs
  · rw [hs] at hl; simp at hl
  · simp [statOpt, hs]

lemma savingsPctDraws_isSome {total spend : List ℚ}
    (h : ∀ sp ∈ spend, sp ≠ 0) :
    ∀ x ∈ savingsPctDraws total spend, x.isSome := by
  intro x hx
  obtain ⟨⟨a, b⟩, hp, rfl⟩ := List.mem_map.1 hx
  have hb := (List.of_mem_zip hp).2
  simp [qdiv, h b hb]

/-- C6 amended: the division guards of the three algorithms.  The
zero-quantity average cost and the zero-historical-spend percentage are
sentinel-guarded (NULL and 0 respectively), the degenerate price range is
replaced by the 1.0 proxy, and the Monte Carlo savings-percentage
denominator is protected by the 50%-of-base clipping only when the base
total spend is positive — with a zero base the percentage draws divide by
zero (see the counterexample). -/
theorem c6_division_guards :
    (∀ (ins : Insights) (up : UncertaintyParams) (n : ℕ) (seed : ℤ)
        (g : RngState), 0 < ins.total_spend →
        ((runMonteCarloAnalysis ins n seed up g).savings_pct_mean.isSome
          ∧ (runMonteCarloAnalysis ins n seed up g).savings_pct_median.isSome
          ∧ (runMonteCarloAnalysis ins n seed up g).savings_pct_p05.isSome
          ∧ (runMonteCarloAnalysis ins n seed up g).savings_pct_p95.isSome))
    ∧ (∀ (sups : List Supplier) (pos : List PORow) (qis : List QIRow)
        (maxSup : ℕ) (minShare : ℚ) (w : ScoreWeights),
        (runSupplierOptimization sups pos qis maxSup minShare w).2.historical_spend_ngn ≤ 0 →
        (runSupplierOptimization sups pos qis maxSup minShare w).2.optimization_savings_pct = 0)
    ∧ (∀ (sups : List Supplier) (pos : List PORow) (qis : List QIRow)
        (c : Constraints),
        ((constrainedResults sups pos qis c).map (fun p => p.2)).sum ≤ 0 →
        (runConstrainedOptimization sups pos qis c).2.constrained_savings_pct = 0)
    ∧ (∀ mn mx : ℚ, 0 < priceRange mn mx)
    ∧ (∀ (rows : List JoinedRow) (k : GroupKey),
        ((rows.filter (fun j => rowKey j = k)).map (fun j => j.po.quantity)).sum = 0 →
        (aggKey rows k).avg_unit_cost_ngn = none) := by
  refine ⟨?_, ?_, ?_, ?_, ?_⟩
  · intro ins up n seed g hts
    dsimp only [runMonteCarloAnalysis]
    have hspend : ∀ sp ∈ (normalDraws ins.total_spend
        (ins.total_spend * up.total_spend_sigma) n
        (normalDraws ins.consolidation_savings
          (ins.consolidation_savings * up.consolidation_sigma) n
          (normalDraws ins.performance_improvement_savings
            (ins.performance_improvement_savings * up.performance_improvement_sigma) n
            (normalDraws ins.price_standardization_savings
              (ins.price_standardization_savings * up.price_standardization_sigma) n
              (seedState seed)).2).2).2).1.map
          (fun x => max (ins.total_spend * (1/2)) x), sp ≠ 0 := by
      intro sp hsp
      obtain ⟨y, _, rfl⟩ := List.mem_map.1 hsp
      have h2 : 0 < ins.total_spend * (1/2) := by linarith
      exact ne_of_gt (lt_of_lt_of_le h2 (le_max_left _ _))
    exact ⟨statOpt_isSome _ (savingsPctDraws_isSome hspend),
      statOpt_isSome _ (savingsPctDraws_isSome hspend),
      statOpt_isSome _ (savingsPctDraws_isSome hspend),
      statOpt_isSome _ (savingsPctDraws_isSome hspend)⟩
  · intro sups pos qis maxSup minShare w h
    dsimp only [runSupplierOptimization] at h ⊢
    by_cases hm : supplierMetrics sups pos qis = []
    · rw [if_pos hm]
    · rw [if_neg hm] at h ⊢
      dsimp only at h ⊢
      rw [if_neg (not_lt.2 h)]
  · intro sups pos qis c h
    dsimp only [runConstrainedOptimization] at h ⊢
    by_cases hm : supplierMetrics sups pos qis = []
    · rw [if_pos hm]
    · rw [if_neg hm]
      dsimp only at h ⊢
      rw [if_neg (not_lt.2 h)]
  · intro mn mx
    unfold priceRange
    split_ifs with h
    · linarith
    · norm_num
  · intro rows k h
    dsimp only [aggKey]
    rw [if_pos h]

/-- C6 witness: the guard statement instantiated at concrete inputs — a
unit-spend Monte Carlo run, the empty database for both optimizers, a
degenerate price range, and an empty group for the average-cost NULL. -/
theorem c6_division_guards_witness :
    ((runMonteCarloAnalysis insUnitSpend 1 0 defaultUncertainty 0).savings_pct_mean.isSome
      ∧ (runMonteCarloAnalysis insUnitSpend 1 0 defaultUncertainty 0).savings_pct_median.isSome
      ∧ (runMonteCarloAnalysis insUnitSpend 1 0 defaultUncertainty 0).savings_pct_p05.isSome
      ∧ (runMonteCarloAnalysis insUnitSpend 1 0 defaultUncertainty 0).savings_pct_p95.isSome)
    ∧ (runSupplierOptimization [] [] [] 3 (3/20) defaultScoreWeights).2.optimization_savings_pct = 0
    ∧ (runConstrainedOptimization [] [] [] constraintsDual).2.constrained_savings_pct = 0
    ∧ 0 < priceRange 5 5
    ∧ (aggKey [] ⟨"Cat", "S1", "SupA", "Low"⟩).avg_unit_cost_ngn = none :=
  ⟨c6_division_guards.1 insUnitSpend defaultUncertainty 1 0 0 (by norm_num [insUnitSpend]),
    c6_division_guards.2.1 [] [] [] 3 (3/20) defaultScoreWeights
      (by with_unfolding_all decide),
    c6_division_guards.2.2.1 [] [] [] constraintsDual
      (by with_unfolding_all decide),
    c6_division_guards.2.2.2.1 5 5,
    c6_division_guards.2.2.2.2 [] ⟨"Cat", "S1", "SupA", "Low"⟩
      (by with_unfolding_all decide)⟩

lemma categoryRecs_share_shape {c : Constraints}
    {pq : List SupplierCategoryMetric} {qty spend : ℚ} {b : Bool} {r : CRec}
    (hr : r ∈ categoryRecs c pq qty spend b) :
    (r.dual_sourced = true →
      r.constrained_share = min (13/20) c.max_single_supplier_share
        ∨ r.constrained_share = 1 - min (13/20) c.max_single_supplier_share)
    ∧ (r.dual_sourced = false → r.constrained_share = 1) := by
  unfold categoryRecs at hr
  split at hr
  · split at hr
    · simp at hr
    · dsimp only at hr
      split at hr
      · rw [List.mem_singleton] at hr
        subst hr
        refine ⟨fun hd => ?_, fun _ => rfl⟩
        simp [mkCRec] at hd
      · split at hr
        · simp at hr
        · rcases List.mem_cons.1 hr with rfl | hr2
          · exact ⟨fun _ => Or.inl rfl, fun hd => by simp [mkCRec] at hd⟩
          · rw [List.mem_singleton] at hr2
            subst hr2
            exact ⟨fun _ => Or.inr rfl, fun hd => by simp [mkCRec] at hd⟩
  · split at hr
    · simp at hr
    · rw [List.mem_singleton] at hr
      subst hr
      refine ⟨fun hd => ?_, fun _ => rfl⟩
      simp [mkCRec] at hd

/-- C1 amended: in the constrained optimizer, the share cap holds only for
the primary supplier of the dual-sourced path, whose share is
`min(0.65, max_single_supplier_share) ≤ max_single_supplier_share`; the
dual secondary receives the complement `1 − min(0.65, cap)` (which can
exceed the cap when the cap is below 0.5), and every single-source row —
including the ordinary path where dual-sourcing is simply not enforced —
receives share exactly 1.0, which exceeds any cap below 1. -/
theorem c1_share_characterization (c : Constraints)
    (group : List SupplierCategoryMetric) (h : CategoryHistory) (r : CRec)
    (hr : r ∈ (constrainedCategory c group h).1) :
    (r.dual_sourced = true →
      (r.constrained_share = min (13/20) c.max_single_supplier_share
          ∨ r.constrained_share = 1 - min (13/20) c.max_single_supplier_share)
        ∧ min (13/20 : ℚ) c.max_single_supplier_share ≤ c.max_single_supplier_share)
    ∧ (r.dual_sourced = false → r.constrained_share = 1) := by
  unfold constrainedCategory at hr
  dsimp only at hr
  split at hr
  · simp at hr
  · dsimp only at hr
    have hh := categoryRecs_share_shape hr
    exact ⟨fun hd => ⟨hh.1 hd, min_le_right _ _⟩, hh.2⟩

/-- C1 witness: the characterization applied to the primary row of the
dual-sourced category of `posAB` under `constraintsDual`. -/
theorem c1_share_characterization_witness :
    ((⟨⟨"Cat", "S1", "SupA", 10, 100, some 10, some 100, 0, 0, 1, "Low"⟩,
        13/20, 13, 130, 300, true⟩ : CRec).dual_sourced = true →
      ((⟨⟨"Cat", "S1", "SupA", 10, 100, some 10, some 100, 0, 0, 1, "Low"⟩,
          13/20, 13, 130, 300, true⟩ : CRec).constrained_share =
            min (13/20) constraintsDual.max_single_supplier_share
        ∨ (⟨⟨"Cat", "S1", "SupA", 10, 100, some 10, some 100, 0, 0, 1, "Low"⟩,
            13/20, 13, 130, 300, true⟩ : CRec).constrained_share =
              1 - min (13/20) constraintsDual.max_single_supplier_share)
        ∧ min (13/20 : ℚ) constraintsDual.max_single_supplier_share ≤
            constraintsDual.max_single_supplier_share)
    ∧ ((⟨⟨"Cat", "S1", "SupA", 10, 100, some 10, some 100, 0, 0, 1, "Low"⟩,
        13/20, 13, 130, 300, true⟩ : CRec).dual_sourced = false →
      (⟨⟨"Cat", "S1", "SupA", 10, 100, some 10, some 100, 0, 0, 1, "Low"⟩,
        13/20, 13, 130, 300, true⟩ : CRec).constrained_share = 1) :=
  c1_share_characterization constraintsDual (supplierMetrics supsAB posAB [])
    ⟨"Cat", 20, 300, some 15⟩
    ⟨⟨"Cat", "S1", "SupA", 10, 100, some 10, some 100, 0, 0, 1, "Low"⟩,
      13/20, 13, 130, 300, true⟩
    (by with_unfolding_all decide)

lemma foldl_min_ne_none (t : List ℚ) (a : ℚ) :
    t.foldl (fun acc x =>
      match acc with | none => some x | some m => some (min m x)) (some a) ≠
        none := by
  induction t generalizing a with
  | nil => simp
  | cons b t ih => exact ih (min a b)

/-- C8 amended: a supplier-category group with no non-null actual delivery
date gets a NULL (undefined) OTD percentage, and the constrained
eligibility filter then always rejects it (NaN fails the `>=` floor).  In
the unconstrained path the undefined value is **not** replaced by a
worst-possible score: when the category's defined OTD values span a
positive range the supplier's normalized delivery score is NaN (undefined,
sorting after all defined scores), and when the defined values are all
equal or absent the degenerate branch assigns it the tie-neutral best
score 1.0. -/
theorem c8_undefined_otd_amended :
    (∀ (c : Constraints) (group : List SupplierCategoryMetric)
        (m : SupplierCategoryMetric),
        m.on_time_delivery_pct = none → m ∉ eligibleFilter c group)
    ∧ (∀ (rows : List JoinedRow) (k : GroupKey),
        ((rows.filter (fun j => rowKey j = k)).filter
            (fun j => j.po.actual_delivery_date.isSome)).length = 0 →
        (aggKey rows k).on_time_delivery_pct = none)
    ∧ (∀ (s : List (Option ℚ)) (i : ℕ) (hib : Bool) (mn mx : ℚ),
        s.get? i = some none → definedMin s = some mn →
        definedMax s = some mx → mx ≠ mn →
        (minmaxScale s hib).get? i = some none)
    ∧ (∀ (s : List (Option ℚ)) (i : ℕ) (hib : Bool),
        s.get? i = some none →
        (definedMin s = none
          ∨ (∃ v, definedMin s = some v ∧ definedMax s = some v)) →
        (minmaxScale s hib).get? i = some (some 1)) := by
  refine ⟨?_, ?_, ?_, ?_⟩
  · intro c group m hotd hmem
    rw [eligibleFilter, List.mem_filter] at hmem
    rw [hotd] at hmem
    simp [otdGeB] at hmem
  · intro rows k h
    dsimp only [aggKey]
    rw [if_pos h]
  · intro s i hib mn mx hsi hmin hmax hne
    unfold minmaxScale
    rw [hmin, hmax]
    dsimp only
    rw [if_neg hne, List.get?_map, hsi]
    rfl
  · intro s i hib hsi hdeg
    unfold minmaxScale
    rcases hdeg with hmin | ⟨v, hmin, hmax⟩
    · have hmax : definedMax s = none := by
        unfold definedMin at hmin
        unfold definedMax
        rcases hfm : s.filterMap id with _ | ⟨a, t⟩
        · rfl
        · rw [hfm] at hmin
          exact absurd hmin (by simpa using foldl_min_ne_none t a)
      rw [hmin, hmax]
      dsimp only
      rw [List.get?_map, hsi]
      rfl
    · rw [hmin, hmax]
      dsimp only
      rw [if_pos rfl, List.get?_map, hsi]
      rfl

/-- C8 witness: the amended statement at concrete inputs — the
undefined-OTD metric row of `posNoActual` is not eligible, its aggregated
OTD is NULL, and the two min-max branches at an undefined entry. -/
theorem c8_undefined_otd_witness :
    (⟨"Cat", "S1", "SupA", 10, 100, some 10, none, 0, 0, 1, "Low"⟩ :
        SupplierCategoryMetric) ∉
      eligibleFilter constraintsDual (supplierMetrics supsAB posNoActual [])
    ∧ (aggKey (joinedRows supsAB posNoActual [])
        ⟨"Cat", "S1", "SupA", "Low"⟩).on_time_delivery_pct = none
    ∧ (minmaxScale [none, some 0, some 100] true).get? 0 = some none
    ∧ (minmaxScale [none, some 100] true).get? 0 = some (some 1) :=
  ⟨c8_undefined_otd_amended.1 constraintsDual
      (supplierMetrics supsAB posNoActual [])
      ⟨"Cat", "S1", "SupA", 10, 100, some 10, none, 0, 0, 1, "Low"⟩ rfl,
    c8_undefined_otd_amended.2.1 (joinedRows supsAB posNoActual [])
      ⟨"Cat", "S1", "SupA", "Low"⟩ (by with_unfolding_all decide),
    c8_undefined_otd_amended.2.2.1 [none, some 0, some 100] 0 true 0 100 rfl
      (by with_unfolding_all decide) (by with_unfolding_all decide)
      (by norm_num),
    c8_undefined_otd_amended.2.2.2 [none, some 100] 0 true rfl
      (Or.inr ⟨100, by with_unfolding_all decide, by with_unfolding_all decide⟩)⟩

lemma all_isSome_exists_map_some {l : List (Option ℚ)}
    (h : ∀ x ∈ l, x.isSome) : ∃ vs : List ℚ, l = vs.map some := by
  induction l with
  | nil => exact ⟨[], rfl⟩
  | cons a t ih =>
    obtain ⟨vs, hvs⟩ := ih (fun x hx => h x (List.mem_cons_of_mem _ hx))
    rcases a with _ | v
    · simpa using h none (List.mem_cons_self _ _)
    · exact ⟨v :: vs, by simp [hvs]⟩

lemma filterMap_id_map_some (vs : List ℚ) :
    (vs.map some).filterMap id = vs := by
  rw [List.filterMap_map]
  simpa using List.filterMap_some vs

lemma skipnaSum_map_some (vs : List ℚ) : skipnaSum (vs.map some) = vs.sum := by
  rw [skipnaSum, filterMap_id_map_some]

lemma seqOpt_map_some (vs : List ℚ) : seqOpt (vs.map some) = some vs := by
  induction vs with
  | nil => rfl
  | cons v t ih => simp [seqOpt, ih]

lemma sumOpt_map_some (vs : List ℚ) : sumOpt (vs.map some) = some vs.sum := by
  rw [sumOpt, seqOpt_map_some, Option.map_some']

lemma sum_map_div (l : List ℚ) (c : ℚ) :
    (l.map (fun x => x / c)).sum = l.sum / c := by
  induction l with
  | nil => simp
  | cons a t ih => simp [ih, add_div]

lemma sum_map_const_q (l : List ℚ) (c : ℚ) :
    (l.map (fun _ => c)).sum = (l.length : ℚ) * c := by
  induction l with
  | nil => simp
  | cons a t ih =>
    simp only [List.map_cons, List.sum_cons, ih, List.length_cons]
    push_cast
    ring

lemma sum_map_le_sum_map (l : List ℚ) (f g : ℚ → ℚ)
    (h : ∀ x ∈ l, f x ≤ g x) : (l.map f).sum ≤ (l.map g).sum := by
  induction l with
  | nil => simp
  | cons a t ih =>
    simp only [List.map_cons, List.sum_cons]
    exact add_le_add (h a (List.mem_cons_self _ _))
      (ih (fun x hx => h x (List.mem_cons_of_mem _ hx)))

lemma allocateShares_map_some (vs : List ℚ) (m : ℚ) :
    allocateShares (vs.map some) m = (allocateSharesVals vs m).map some := by
  unfold allocateShares allocateSharesVals
  rcases eq_or_ne vs [] with rfl | hne
  · simp
  · rw [if_neg (by simpa using hne), if_neg hne]
    rw [skipnaSum_map_some]
    dsimp only
    by_cases hp : 0 < vs.sum
    · rw [if_pos hp, if_pos hp]
      have hsum : skipnaSum (((vs.map some).map
            (Option.map (fun x => x / vs.sum))).map
            (Option.map (fun x => max m x))) =
          ((vs.map (fun x => x / vs.sum)).map (fun x => max m x)).sum := by
        simp only [List.map_map, skipnaSum, List.filterMap_map]
        rw [show (id ∘ ((Option.map fun x => max m x) ∘
            ((Option.map fun x => x / vs.sum) ∘ some))) =
            some ∘ ((fun x => max m x) ∘ (fun x => x / vs.sum)) from rfl]
        rw [List.filterMap_eq_map]
      rw [hsum]
      simp only [List.map_map, List.length_map]
      rfl
    · rw [if_neg hp, if_neg hp]
      rw [List.length_map]
      have hsum : skipnaSum (((vs.map some).map
            (fun _ => some (1 / (vs.length : ℚ)))).map
            (Option.map (fun x => max m x))) =
          ((vs.map (fun _ => 1 / (vs.length : ℚ))).map (fun x => max m x)).sum := by
        simp only [List.map_map, skipnaSum, List.filterMap_map]
        rw [show (id ∘ ((Option.map fun x => max m x) ∘
            ((fun _ : Option ℚ => some (1 / (vs.length : ℚ))) ∘ some))) =
            some ∘ ((fun x => max m x) ∘ (fun _ : ℚ => 1 / (vs.length : ℚ))) from rfl]
        rw [List.filterMap_eq_map]
      rw [hsum]
      simp only [List.map_map, List.length_map]
      rfl

lemma allocateSharesVals_sum (vs : List ℚ) (m : ℚ) (hne : vs ≠ []) :
    (allocateSharesVals vs m).sum = 1 := by
  unfold allocateSharesVals
  rw [if_neg hne]
  dsimp only
  by_cases hp : 0 < vs.sum
  · rw [if_pos hp]
    have hbase : (vs.map (fun x => x / vs.sum)).sum = 1 := by
      rw [sum_map_div]
      exact div_self (ne_of_gt hp)
    have hS : (1 : ℚ) ≤
        ((vs.map (fun x => x / vs.sum)).map (fun x => max m x)).sum := by
      rw [List.map_map]
      calc (1 : ℚ) = (vs.map (fun x => x / vs.sum)).sum := hbase.symm
        _ ≤ (vs.map ((fun x => max m x) ∘ (fun x => x / vs.sum))).sum :=
            sum_map_le_sum_map vs _ _ (fun x _ => le_max_right _ _)
    rw [sum_map_div]
    exact div_self (by linarith)
  · rw [if_neg hp]
    have hlen : (0 : ℚ) < (vs.length : ℚ) := by
      have : 0 < vs.length := List.length_pos.2 hne
      exact_mod_cast this
    have hbase : (vs.map (fun _ => 1 / (vs.length : ℚ))).sum = 1 := by
      rw [sum_map_const_q]
      field_simp
    have hS : (1 : ℚ) ≤
        ((vs.map (fun _ => 1 / (vs.length : ℚ))).map (fun x => max m x)).sum := by
      rw [List.map_map]
      calc (1 : ℚ) = (vs.map (fun _ => 1 / (vs.length : ℚ))).sum := hbase.symm
        _ ≤ (vs.map ((fun x => max m x) ∘ (fun _ => 1 / (vs.length : ℚ)))).sum :=
            sum_map_le_sum_map vs _ _ (fun x _ => le_max_right _ _)
    rw [sum_map_div]
    exact div_self (by linarith)

lemma allocateShares_length (l : List (Option ℚ)) (m : ℚ) :
    (allocateShares l m).length = l.length := by
  unfold allocateShares
  rcases eq_or_ne l [] with rfl | hne
  · simp
  · rw [if_neg hne]
    dsimp only
    by_cases hp : 0 < skipnaSum l <;> simp [hp]

/-- C3 amended: in every category where the unconstrained optimizer
selects at least one supplier and every selected supplier's composite
score is defined (no NaN), the recommended shares sum to exactly 1 (hence
to 1.0 within 1e-6).  When a selected supplier's OTD percentage is
undefined and the category's defined OTD values span a positive range,
its composite score — and therefore its share — is NaN instead, and the
shares have no defined sum (see the counterexample). -/
theorem c3_shares_sum_to_one (w : ScoreWeights) (maxSup : ℕ) (minShare : ℚ)
    (group : List SupplierCategoryMetric)
    (hsel : selectTop maxSup (scoredRows w group) ≠ [])
    (hdef : ∀ r ∈ selectTop maxSup (scoredRows w group), r.score.isSome) :
    sumOpt ((categoryRecommendations w maxSup minShare group).map
      (fun p => p.2)) = some 1 := by
  have hscores : ∀ x ∈ (selectTop maxSup (scoredRows w group)).map
      (fun r => r.score), x.isSome := by
    intro x hx
    obtain ⟨r, hr, rfl⟩ := List.mem_map.1 hx
    exact hdef r hr
  obtain ⟨vs, hvs⟩ := all_isSome_exists_map_some hscores
  have hvsne : vs ≠ [] := by
    intro h
    rw [h] at hvs
    simp only [List.map_nil, List.map_eq_nil_iff] at hvs
    exact hsel hvs
  have hmap : (categoryRecommendations w maxSup minShare group).map
      (fun p => p.2) = allocateShares ((selectTop maxSup
        (scoredRows w group)).map (fun r => r.score)) minShare := by
    unfold categoryRecommendations
    exact List.map_snd_zip _ _
      (by rw [allocateShares_length, List.length_map])
  rw [hmap, hvs, allocateShares_map_some, sumOpt_map_some,
    allocateSharesVals_sum vs minShare hvsne]

/-- C3 witness: the amended statement at the concrete two-supplier tied
category (all composite scores defined): the shares sum to 1. -/
theorem c3_shares_sum_to_one_witness :
    sumOpt ((categoryRecommendations defaultScoreWeights 3 (3/20)
      (supplierMetrics supsAB posTie [])).map (fun p => p.2)) = some 1 :=
  c3_shares_sum_to_one defaultScoreWeights 3 (3/20)
    (supplierMetrics supsAB posTie []) (by with_unfolding_all decide)
    (by with_unfolding_all decide)

lemma qround_pos_of_round2_pos {q : ℚ} (h : 0 < round2 q) : q ≠ 0 := by
  intro hq
  rw [hq] at h
  norm_num [round2, qround] at h
  rw [show ((1 : ℚ) / 2) = (1 : ℚ) / 2 from rfl] at h
  have : Rat.floor ((1 : ℚ) / 2) = ⌊(1 : ℚ) / 2⌋ := by
    rw [Rat.floor_def', Rat.floor_def]
  rw [this] at h
  norm_num at h

lemma supplierMetrics_cost_isSome {sups : List Supplier} {pos : List PORow}
    {qis : List QIRow} {m : SupplierCategoryMetric}
    (hm : m ∈ supplierMetrics sups pos qis) :
    m.avg_unit_cost_ngn.isSome := by
  unfold supplierMetrics at hm
  have hfil := List.mem_filter.1 hm
  obtain ⟨k, _, hk⟩ := List.mem_map.1 hfil.1
  have hq := hfil.2
  rw [← hk] at hq ⊢
  simp only [decide_eq_true_eq] at hq
  unfold aggKey at hq ⊢
  dsimp only at hq ⊢
  rw [if_neg (qround_pos_of_round2_pos hq)]
  rfl

lemma nsmallest1Cost_foldl_spec :
    ∀ (l : List SupplierCategoryMetric)
      (acc : Option SupplierCategoryMetric) (r : SupplierCategoryMetric),
      l.foldl (fun acc m =>
        match m.avg_unit_cost_ngn with
        | none => acc
        | some cm =>
          match acc with
          | none => some m
          | some a =>
            match a.avg_unit_cost_ngn with
            | none => some m
            | some ca => if cm < ca then some m else acc) acc = some r →
      acc = some r ∨ (r ∈ l ∧ r.avg_unit_cost_ngn.isSome) := by
  intro l
  induction l with
  | nil => intro acc r h; exact Or.inl h
  | cons m t ih =>
    intro acc r h
    rw [List.foldl_cons] at h
    rcases ih _ r h with hacc | hmem
    · rcases hcm : m.avg_unit_cost_ngn with _ | cm
      · rw [hcm] at hacc
        exact Or.inl hacc
      · rcases acc with _ | a
        · rw [hcm] at hacc
          dsimp only at hacc
          refine Or.inr ⟨?_, ?_⟩
          · rw [← Option.some_inj.1 hacc]
            exact List.mem_cons_self _ _
          · rw [← Option.some_inj.1 hacc, hcm]
            rfl
        · rcases hca : a.avg_unit_cost_ngn with _ | ca
          · rw [hcm] at hacc
            dsimp only at hacc
            rw [hca] at hacc
            dsimp only at hacc
            refine Or.inr ⟨?_, ?_⟩
            · rw [← Option.some_inj.1 hacc]
              exact List.mem_cons_self _ _
            · rw [← Option.some_inj.1 hacc, hcm]
              rfl
          · rw [hcm] at hacc
            dsimp only at hacc
            rw [hca] at hacc
            dsimp only at hacc
            by_cases hlt : cm < ca
            · rw [if_pos hlt] at hacc
              refine Or.inr ⟨?_, ?_⟩
              · rw [← Option.some_inj.1 hacc]
                exact List.mem_cons_self _ _
              · rw [← Option.some_inj.1 hacc, hcm]
                rfl
            · rw [if_neg hlt] at hacc
              exact Or.inl hacc
    · exact Or.inr ⟨List.mem_cons_of_mem _ hmem.1, hmem.2⟩

lemma nsmallest1Cost_mem {l : List SupplierCategoryMetric}
    {r : SupplierCategoryMetric} (h : nsmallest1Cost l = some r) :
    r ∈ l ∧ r.avg_unit_cost_ngn.isSome := by
  unfold nsmallest1Cost at h
  rcases nsmallest1Cost_foldl_spec l none r h with h0 | h1
  · cases h0
  · exact h1

lemma nsmallest1Cost_foldl_isSome :
    ∀ (l : List SupplierCategoryMetric) (acc : Option SupplierCategoryMetric),
      (acc.isSome ∨ ∃ x ∈ l, x.avg_unit_cost_ngn.isSome) →
      (l.foldl (fun acc m =>
        match m.avg_unit_cost_ngn with
        | none => acc
        | some cm =>
          match acc with
          | none => some m
          | some a =>
            match a.avg_unit_cost_ngn with
            | none => some m
            | some ca => if cm < ca then some m else acc) acc).isSome := by
  intro l
  induction l with
  | nil =>
    intro acc h
    rcases h with h | ⟨x, hx, _⟩
    · exact h
    · cases hx
  | cons m t ih =>
    intro acc h
    rw [List.foldl_cons]
    apply ih
    rcases hcm : m.avg_unit_cost_ngn with _ | cm
    · rcases h with h | ⟨x, hx, hxs⟩
      · exact Or.inl h
      · rcases List.mem_cons.1 hx with rfl | hxt
        · rw [hcm] at hxs
          simp at hxs
        · exact Or.inr ⟨x, hxt, hxs⟩
    · left
      rcases acc with _ | a
      · rfl
      · dsimp only
        rcases a.avg_unit_cost_ngn with _ | ca
        · rfl
        · dsimp only
          by_cases hlt : cm < ca
          · rw [if_pos hlt]; rfl
          · rw [if_neg hlt]; rfl

lemma nsmallest1Cost_isSome {l : List SupplierCategoryMetric}
    (h : ∃ x ∈ l, x.avg_unit_cost_ngn.isSome) :
    (nsmallest1Cost l).isSome := by
  unfold nsmallest1Cost
  exact nsmallest1Cost_foldl_isSome l none (Or.inr h)

lemma eligibleRelaxed_subset {c : Constraints}
    {g : List SupplierCategoryMetric} {x : SupplierCategoryMetric}
    (hx : x ∈ eligibleRelaxed c g) : x ∈ g := by
  unfold eligibleRelaxed at hx
  dsimp only at hx
  split at hx
  · rcases hs : nsmallest1Cost g with _ | r
    · rw [hs] at hx; cases hx
    · rw [hs] at hx
      rw [Option.toList_some, List.mem_singleton] at hx
      subst hx
      exact (nsmallest1Cost_mem hs).1
  · exact (List.mem_filter.1 hx).1

lemma eligibleRelaxed_ne_nil (c : Constraints)
    {g : List SupplierCategoryMetric} (hg : g ≠ [])
    (hall : ∀ x ∈ g, x.avg_unit_cost_ngn.isSome) :
    eligibleRelaxed c g ≠ [] := by
  unfold eligibleRelaxed
  dsimp only
  split
  · obtain ⟨x, hx⟩ := List.exists_mem_of_ne_nil g hg
    have := nsmallest1Cost_isSome ⟨x, hx, hall x hx⟩
    rcases hs : nsmallest1Cost g with _ | r
    · rw [hs] at this; cases this
    · simp
  · assumption

lemma priceQualified_subset {c : Constraints}
    {elig : List SupplierCategoryMetric} {x : SupplierCategoryMetric}
    (hx : x ∈ priceQualified c elig) : x ∈ elig := by
  unfold priceQualified at hx
  split at hx
  · exact (List.mem_filter.1 hx).1
  · cases hx

lemma pqRelaxed_subset {c : Constraints}
    {elig : List SupplierCategoryMetric} {x : SupplierCategoryMetric}
    (hx : x ∈ pqRelaxed c elig) : x ∈ elig := by
  unfold pqRelaxed at hx
  dsimp only at hx
  split at hx
  · rcases hs : nsmallest1Cost elig with _ | r
    · rw [hs] at hx; cases hx
    · rw [hs] at hx
      rw [Option.toList_some, List.mem_singleton] at hx
      subst hx
      exact (nsmallest1Cost_mem hs).1
  · exact priceQualified_subset hx

lemma pqRelaxed_ne_nil (c : Constraints)
    {elig : List SupplierCategoryMetric} (he : elig ≠ [])
    (hall : ∀ x ∈ elig, x.avg_unit_cost_ngn.isSome) :
    pqRelaxed c elig ≠ [] := by
  unfold pqRelaxed
  dsimp only
  split
  · obtain ⟨x, hx⟩ := List.exists_mem_of_ne_nil elig he
    have := nsmallest1Cost_isSome ⟨x, hx, hall x hx⟩
    rcases hs : nsmallest1Cost elig with _ | r
    · rw [hs] at this; cases this
    · simp
  · assumption

lemma categoryRecs_exists_mem (c : Constraints)
    {pq : List SupplierCategoryMetric} (qty spend : ℚ) (b : Bool)
    (hne : pq ≠ []) (hall : ∀ x ∈ pq, x.avg_unit_cost_ngn.isSome) :
    ∃ rec ∈ categoryRecs c pq qty spend b, rec.metric ∈ pq := by
  obtain ⟨x, hx⟩ := List.exists_mem_of_ne_nil pq hne
  have hps := nsmallest1Cost_isSome ⟨x, hx, hall x hx⟩
  rcases hs : nsmallest1Cost pq with _ | primary
  · rw [hs] at hps; cases hps
  · have hpmem := (nsmallest1Cost_mem hs).1
    unfold categoryRecs
    split
    · rw [hs]
      dsimp only
      split
      · exact ⟨mkCRec primary 1 qty spend false, List.mem_singleton.2 rfl, hpmem⟩
      · rename_i hsc
        have hscall : ∀ y ∈ pq.filter
            (fun mm => mm.supplier_id ≠ primary.supplier_id),
            y.avg_unit_cost_ngn.isSome := fun y hy =>
          hall y (List.mem_filter.1 hy).1
        obtain ⟨z, hz⟩ := List.exists_mem_of_ne_nil _ hsc
        have hzs := nsmallest1Cost_isSome ⟨z, hz, hscall z hz⟩
        rcases hs2 : nsmallest1Cost (pq.filter
            (fun mm => mm.supplier_id ≠ primary.supplier_id)) with _ | sec
        · rw [hs2] at hzs; cases hzs
        · exact ⟨mkCRec primary (min (13/20) c.max_single_supplier_share)
              qty spend true, List.mem_cons_self _ _, hpmem⟩
    · rw [hs]
      exact ⟨mkCRec primary 1 qty spend false, List.mem_singleton.2 rfl, hpmem⟩

lemma constrainedCategory_exists (c : Constraints)
    {group : List SupplierCategoryMetric} (h : CategoryHistory)
    (hg : group ≠ []) (hall : ∀ x ∈ group, x.avg_unit_cost_ngn.isSome) :
    ∃ rec ∈ (constrainedCategory c group h).1, rec.metric ∈ group := by
  unfold constrainedCategory
  dsimp only
  have helig := eligibleRelaxed_ne_nil c hg hall
  rw [if_neg helig]
  dsimp only
  have hael : ∀ x ∈ eligibleRelaxed c group, x.avg_unit_cost_ngn.isSome :=
    fun x hx => hall x (eligibleRelaxed_subset hx)
  have hpq := pqRelaxed_ne_nil c helig hael
  have hapq : ∀ x ∈ pqRelaxed c (eligibleRelaxed c group),
      x.avg_unit_cost_ngn.isSome :=
    fun x hx => hael x (pqRelaxed_subset hx)
  obtain ⟨rec, hrec, hrecm⟩ := categoryRecs_exists_mem
    c h.category_quantity h.category_spend_ngn
    (decide (c.min_dual_source_threshold < h.category_spend_ngn))
    hpq hapq
  exact ⟨rec, hrec, eligibleRelaxed_subset (pqRelaxed_subset hrecm)⟩

lemma joinedRows_po_mem {sups : List Supplier} {pos : List PORow}
    {qis : List QIRow} {j : JoinedRow} (hj : j ∈ joinedRows sups pos qis) :
    j.po ∈ pos := by
  unfold joinedRows at hj
  obtain ⟨po, hpo, hmem⟩ := List.mem_flatMap.1 hj
  rcases hlr : lookupRisk sups po.supplier_id with _ | r
  · rw [hlr] at hmem
    cases hmem
  · rw [hlr] at hmem
    dsimp only at hmem
    rcases hflt : qis.filter (fun q => q.po_number = po.po_number) with _ | ⟨q, qs⟩
    · rw [hflt] at hmem
      rw [List.mem_singleton] at hmem
      subst hmem
      exact hpo
    · rw [hflt] at hmem
      obtain ⟨q2, _, rfl⟩ := List.mem_map.1 hmem
      exact hpo

lemma supplierMetrics_category_from_pos {sups : List Supplier}
    {pos : List PORow} {qis : List QIRow} {m : SupplierCategoryMetric}
    (hm : m ∈ supplierMetrics sups pos qis) :
    ∃ p ∈ pos, p.category = m.category := by
  unfold supplierMetrics at hm
  have hfil := List.mem_filter.1 hm
  obtain ⟨k, hk, hkm⟩ := List.mem_map.1 hfil.1
  have hk2 : k ∈ (joinedRows sups pos qis).map rowKey := List.mem_dedup.1 hk
  obtain ⟨j, hj, hjk⟩ := List.mem_map.1 hk2
  refine ⟨j.po, joinedRows_po_mem hj, ?_⟩
  rw [← hkm]
  unfold aggKey
  dsimp only
  rw [← hjk]
  rfl

lemma categoryHistory_find_some {pos : List PORow} {cat : String}
    (h : cat ∈ pos.map (fun p => p.category)) :
    ∃ hh, (categoryHistory pos).find? (fun x => x.category = cat) = some hh := by
  have hdd : cat ∈ (pos.map (fun p => p.category)).dedup := List.mem_dedup.2 h
  have hsome : ((categoryHistory pos).find?
      (fun x => x.category = cat)).isSome := by
    rw [List.find?_isSome]
    refine ⟨_, List.mem_map.2 ⟨cat, hdd, rfl⟩, ?_⟩
    simp
  rcases hf : (categoryHistory pos).find? (fun x => x.category = cat) with _ | hh
  · rw [hf] at hsome; cases hsome
  · exact ⟨hh, hf⟩

/-- C4: every category with at least one supplier-metric row receives at
least one constrained recommendation row; the fallback chain (relax
eligibility, then relax the price threshold) guarantees a selection, the
history row always exists because both queries aggregate the same
`purchase_orders` table, and no error is surfaced. -/
theorem c4_every_category_recommended (sups : List Supplier)
    (pos : List PORow) (qis : List QIRow) (c : Constraints) (cat : String)
    (hcat : ∃ m ∈ supplierMetrics sups pos qis, m.category = cat) :
    ∃ r ∈ (runConstrainedOptimization sups pos qis c).1,
      r.metric.category = cat := by
  obtain ⟨m, hm, hmc⟩ := hcat
  have hmet_ne : supplierMetrics sups pos qis ≠ [] := List.ne_nil_of_mem hm
  obtain ⟨p, hp, hpc⟩ := supplierMetrics_category_from_pos hm
  have hcatp : cat ∈ pos.map (fun p => p.category) :=
    List.mem_map.2 ⟨p, hp, by rw [hpc, hmc]⟩
  obtain ⟨hh, hfind⟩ := categoryHistory_find_some hcatp
  have hmg : m ∈ (supplierMetrics sups pos qis).filter
      (fun x => x.category = cat) :=
    List.mem_filter.2 ⟨hm, by simp [hmc]⟩
  have hgne : (supplierMetrics sups pos qis).filter
      (fun x => x.category = cat) ≠ [] := List.ne_nil_of_mem hmg
  have hall : ∀ x ∈ (supplierMetrics sups pos qis).filter
      (fun x => x.category = cat), x.avg_unit_cost_ngn.isSome :=
    fun x hx => supplierMetrics_cost_isSome (List.mem_filter.1 hx).1
  obtain ⟨rec, hrec, hrecm⟩ := constrainedCategory_exists c hh hgne hall
  have hcatr : rec.metric.category = cat := by
    have := (List.mem_filter.1 hrecm).2
    simpa using this
  refine ⟨rec, ?_, hcatr⟩
  unfold runConstrainedOptimization
  rw [if_neg hmet_ne]
  dsimp only
  rw [List.mem_flatten]
  refine ⟨(constrainedCategory c ((supplierMetrics sups pos qis).filter
      (fun x => x.category = cat)) hh).1, ?_, hrec⟩
  refine List.mem_map.2 ⟨constrainedCategory c
      ((supplierMetrics sups pos qis).filter (fun x => x.category = cat)) hh,
    ?_, rfl⟩
  unfold constrainedResults
  dsimp only
  refine List.mem_map.2 ⟨cat, ?_, ?_⟩
  · exact List.mem_dedup.2 (List.mem_map.2 ⟨m, hm, hmc⟩)
  · rw [hfind]

/-- C4 witness: on the concrete two-supplier database, the category
`"Cat"` has metric rows and the constrained optimizer returns a
recommendation row for it. -/
theorem c4_every_category_recommended_witness :
    ((runConstrainedOptimization supsAB posAB [] constraintsSingle).1.filter
      (fun r => r.metric.category = "Cat")) ≠ [] := by
  obtain ⟨r, hr, hc⟩ := c4_every_category_recommended supsAB posAB []
    constraintsSingle "Cat" (by with_unfolding_all decide)
  exact List.ne_nil_of_mem (List.mem_filter.2 ⟨hr, by simp [hc]⟩)
